import Mathlib

/-!
Verification development for a glossary store exposed through two protocol
adapters: a FastAPI/SQLAlchemy text/JSON service (rest_app) and a
grpc/sqlite3 binary RPC service (grpc_app), both CRUD over a single Term
table.

Modelling conventions:
* Timestamps are abstract clock ticks (Nat).  Every place the source reads
  the current time (datetime.utcnow() per SQLAlchemy column default or
  assignment, datetime(now) inside an SQLite statement) becomes an explicit
  Nat argument.  The SQLAlchemy model evaluates the created_at default and
  the updated_at default as two separate datetime.utcnow() calls, so the
  REST insert takes two tick arguments; SQLite fixes the statement time
  once per step, so the RPC insert takes one.
* The SQLAlchemy Term model (models.py) declares term unique, so a commit
  of a duplicate term raises IntegrityError; id is a plain INTEGER PRIMARY
  KEY, so SQLite assigns max(live rowid) + 1.  The grpc schema declares
  INTEGER PRIMARY KEY AUTOINCREMENT, so SQLite assigns
  max(sqlite_sequence, max live rowid) + 1 and records it in
  sqlite_sequence; GrpcDB.seq models that sequence entry.
* An SQL ORDER BY with no tie-break clause promises only: the output is a
  permutation of the rows, weakly sorted on the sort column.  Listing is
  therefore modelled as the predicate IsOrderByResult over possible
  outputs rather than as one function.
-/

namespace Glossary

/-- The Term record: id, term (unique key), definition, and the two
timestamps, exactly the columns of the terms table in both stores. -/
structure Term where
  id : Nat
  term : String
  definition : String
  created_at : Nat
  updated_at : Nat
deriving Repr, DecidableEq

/-- Largest id among the rows (0 when empty); mirrors max(rowid). -/
def maxId : List Term → Nat
  | [] => 0
  | r :: rest => max r.id (maxId rest)

/-- Does some live row carry this term key? -/
def hasTerm (rows : List Term) (t : String) : Bool :=
  rows.any (fun r => r.term == t)

/-- SELECT ... WHERE term = t LIMIT 1, i.e. query(...).filter(...).first(). -/
def findTerm (rows : List Term) (t : String) : Option Term :=
  rows.find? (fun r => r.term == t)

/-- How many live rows carry this term key (uniqueness is count <= 1). -/
def countTerm (rows : List Term) (t : String) : Nat :=
  (rows.filter (fun r => r.term == t)).length

/-! ## REST store (rest_app: SQLAlchemy over SQLite, WAL) -/

/-- State of the SQLAlchemy-backed store: the live rows of the terms
table.  id is INTEGER PRIMARY KEY without AUTOINCREMENT, so the next id is
derived from the live rows alone (no persistent sequence). -/
structure RestDB where
  rows : List Term
deriving Repr, DecidableEq

/-- SQLite rowid assignment without AUTOINCREMENT: one larger than the
largest live rowid.  After the largest row is deleted its id is handed out
again. -/
def restNextId (db : RestDB) : Nat := maxId db.rows + 1

/-- Result of committing an INSERT through SQLAlchemy. -/
inductive InsertResult where
  | ok (db : RestDB) (row : Term)
  | integrityError
deriving Repr, DecidableEq

/-- crud.create_term: builds Term(term=..., definition=...), add, commit.
The two timestamp columns have callable defaults, each a separate
datetime.utcnow() call, passed here as t1 (created_at) and t2
(updated_at).  The UNIQUE constraint on term makes the commit raise
IntegrityError when the key is already live. -/
def rest_insert (db : RestDB) (t d : String) (t1 t2 : Nat) : InsertResult :=
  if hasTerm db.rows t then .integrityError
  else
    let row : Term := ⟨restNextId db, t, d, t1, t2⟩
    .ok ⟨db.rows ++ [row]⟩ row

/-- Wire-level outcome of one REST request, tagged with the payload the
handler returns. -/
inductive RestResult where
  | ok200 (t : Term)
  | created201 (t : Term)
  | deleted200
  | notFound404
  | conflict409
  | unprocessable422
  | integrity500
deriving Repr, DecidableEq

/-- HTTP status code of a RestResult.  422 is the FastAPI default for a
pydantic RequestValidationError (no custom handler is installed); an
uncaught IntegrityError surfaces as a 500 internal error. -/
def statusCode : RestResult → Nat
  | .ok200 _ => 200
  | .created201 _ => 201
  | .deleted200 => 200
  | .notFound404 => 404
  | .conflict409 => 409
  | .unprocessable422 => 422
  | .integrity500 => 500

/-- pydantic validation for TermCreate: both fields need min_length 1.
FastAPI runs it before the handler body. -/
def validCreateBody (t d : String) : Bool :=
  decide (1 ≤ t.length) && decide (1 ≤ d.length)

/-- POST /terms with the pre-check and the insert possibly observing two
different committed states (dbPre at the handler pre-check, dbIns at the
commit).  A sequential call has dbPre = dbIns; a concurrent interleaving
where another create commits between the two observations has
dbPre ≠ dbIns.  Returns the state after the request and the wire outcome.
Mirrors main.create_term: 422 from pydantic, 409 from the pre-check,
otherwise crud.create_term whose IntegrityError is caught nowhere and
becomes a 500. -/
def create_term_endpoint2 (dbPre dbIns : RestDB) (t d : String) (t1 t2 : Nat) :
    RestDB × RestResult :=
  if validCreateBody t d = false then (dbIns, .unprocessable422)
  else if hasTerm dbPre.rows t then (dbIns, .conflict409)
  else match rest_insert dbIns t d t1 t2 with
    | .ok dbNew row => (dbNew, .created201 row)
    | .integrityError => (dbIns, .integrity500)

/-- POST /terms in the sequential (no-race) case. -/
def create_term_endpoint (db : RestDB) (t d : String) (t1 t2 : Nat) :
    RestDB × RestResult :=
  create_term_endpoint2 db db t d t1 t2

/-- GET /terms/{term}: 404 when absent, else the row. -/
def get_term_endpoint (db : RestDB) (t : String) : RestResult :=
  match findTerm db.rows t with
  | none => .notFound404
  | some r => .ok200 r

/-- PUT /terms/{term}: pydantic checks the body first (definition
min_length 1, hence 422 before the 404 lookup), then crud.update_term sets
definition and updated_at := datetime.utcnow() (passed as now) and
commits.  The column-level onupdate does not fire because updated_at is
set explicitly. -/
def update_term_endpoint (db : RestDB) (t d : String) (now : Nat) :
    RestDB × RestResult :=
  if decide (1 ≤ d.length) = false then (db, .unprocessable422)
  else match findTerm db.rows t with
    | none => (db, .notFound404)
    | some r =>
      let r2 : Term := { r with definition := d, updated_at := now }
      (⟨db.rows.map (fun x => if x.id = r.id then r2 else x)⟩, .ok200 r2)

/-- DELETE /terms/{term}: 404 when absent, else remove the row. -/
def delete_term_endpoint (db : RestDB) (t : String) : RestDB × RestResult :=
  match findTerm db.rows t with
  | none => (db, .notFound404)
  | some r => (⟨db.rows.filter (fun x => x.id ≠ r.id)⟩, .deleted200)

/-! ## RPC store (grpc_app: raw sqlite3) -/

/-- State of the sqlite3-backed store: live rows plus the sqlite_sequence
entry that AUTOINCREMENT maintains for the terms table. -/
structure GrpcDB where
  rows : List Term
  seq : Nat
deriving Repr, DecidableEq

/-- SQLite rowid assignment with AUTOINCREMENT: strictly above both the
sequence entry and every live rowid, so ids of deleted rows never come
back. -/
def grpcNextId (db : GrpcDB) : Nat := max db.seq (maxId db.rows) + 1

/-- database.create_term: INSERT, catching sqlite3.IntegrityError from the
UNIQUE constraint as None.  Both timestamp columns default to
datetime(now); SQLite fixes now once per statement, so both get the same
tick. -/
def grpc_create_term (db : GrpcDB) (t d : String) (now : Nat) :
    GrpcDB × Option Term :=
  if hasTerm db.rows t then (db, none)
  else
    let i := grpcNextId db
    let row : Term := ⟨i, t, d, now, now⟩
    (⟨db.rows ++ [row], i⟩, some row)

/-- database.get_term_by_name. -/
def get_term_by_name (db : GrpcDB) (t : String) : Option Term :=
  findTerm db.rows t

/-- database.update_term: UPDATE ... SET definition, updated_at =
datetime(now) WHERE term = t; None when rowcount is 0. -/
def grpc_update_term (db : GrpcDB) (t d : String) (now : Nat) :
    GrpcDB × Option Term :=
  match findTerm db.rows t with
  | none => (db, none)
  | some r =>
    let r2 : Term := { r with definition := d, updated_at := now }
    (⟨db.rows.map (fun x => if x.id = r.id then r2 else x), db.seq⟩, some r2)

/-- database.delete_term: DELETE WHERE term = t, true iff a row went. -/
def grpc_delete_term (db : GrpcDB) (t : String) : GrpcDB × Bool :=
  match findTerm db.rows t with
  | none => (db, false)
  | some r => (⟨db.rows.filter (fun x => x.id ≠ r.id), db.seq⟩, true)

/-- grpc status code set by the servicer on one RPC. -/
inductive GrpcStatus where
  | okS
  | invalidArgument
  | notFoundS
  | alreadyExists
deriving Repr, DecidableEq

/-- server.CreateTerm: empty term or definition gives INVALID_ARGUMENT
before touching the store; a None from database.create_term gives
ALREADY_EXISTS; otherwise OK with the created row. -/
def CreateTerm (db : GrpcDB) (t d : String) (now : Nat) :
    GrpcDB × GrpcStatus × Option Term :=
  if t.length = 0 || d.length = 0 then (db, .invalidArgument, none)
  else match grpc_create_term db t d now with
    | (db2, some row) => (db2, .okS, some row)
    | (_, none) => (db, .alreadyExists, none)

/-- server.GetTerm: empty name gives INVALID_ARGUMENT, absent gives
NOT_FOUND. -/
def GetTerm (db : GrpcDB) (t : String) : GrpcStatus × Option Term :=
  if t.length = 0 then (.invalidArgument, none)
  else match get_term_by_name db t with
    | none => (.notFoundS, none)
    | some r => (.okS, some r)

/-- server.UpdateTerm: empty term or definition gives INVALID_ARGUMENT;
None from database.update_term gives NOT_FOUND. -/
def UpdateTerm (db : GrpcDB) (t d : String) (now : Nat) :
    GrpcDB × GrpcStatus × Option Term :=
  if t.length = 0 || d.length = 0 then (db, .invalidArgument, none)
  else match grpc_update_term db t d now with
    | (db2, some row) => (db2, .okS, some row)
    | (_, none) => (db, .notFoundS, none)

/-- server.DeleteTerm: empty name gives INVALID_ARGUMENT; false from
database.delete_term gives NOT_FOUND, else OK. -/
def DeleteTerm (db : GrpcDB) (t : String) : GrpcDB × GrpcStatus :=
  if t.length = 0 then (db, .invalidArgument)
  else match grpc_delete_term db t with
    | (db2, true) => (db2, .okS)
    | (_, false) => (db, .notFoundS)

/-! ## Retry policy (rest_app crud.retry_on_lock) -/

/-- What one invocation of the wrapped function does: return a value,
raise OperationalError with database-is-locked in its message, raise some
other OperationalError, or raise an exception of another class. -/
inductive AttemptResult where
  | success (v : Nat)
  | opErrLocked
  | opErrOther
  | nonOpErr
deriving Repr, DecidableEq

/-- Observable events of one call through the wrapper: an invocation of
the wrapped function (with its attempt index), a session rollback, a
time.sleep of so many milliseconds, a normal return, or one of the three
exception classes propagating to the caller. -/
inductive Ev where
  | call (k : Nat)
  | rollback
  | sleepMs (ms : Nat)
  | ret (v : Nat)
  | raiseLocked
  | raiseOther
  | raiseNonOp
deriving Repr, DecidableEq

/-- Body of the for-attempt-in-range(max_retries) loop of retry_on_lock,
with f giving the outcome of the k-th invocation and fuel the remaining
iterations (max_retries = 3, attempt = 3 - fuel).  On success: return.  On
OperationalError: db.rollback() first; then, when the message says locked
and attempt < max_retries - 1, sleep 0.05 * 2^attempt seconds (here in
milliseconds) and continue; otherwise re-raise.  Any non-OperationalError
propagates untouched.  The loop always returns or raises, so the trailing
call after the loop in the source is dead code and never runs. -/
def retryGo (f : Nat → AttemptResult) : Nat → Nat → List Ev
  | 0, _ => []
  | fuel + 1, attempt =>
    Ev.call attempt ::
      match f attempt with
      | .success v => [Ev.ret v]
      | .opErrLocked =>
        if attempt < 2 then
          Ev.rollback :: Ev.sleepMs (50 * 2 ^ attempt) :: retryGo f fuel (attempt + 1)
        else [Ev.rollback, Ev.raiseLocked]
      | .opErrOther => [Ev.rollback, Ev.raiseOther]
      | .nonOpErr => [Ev.raiseNonOp]

/-- One call of a retry_on_lock-wrapped mutating operation
(create_term, update_term, delete_term): the loop from attempt 0 with
max_retries = 3. -/
def retryRun (f : Nat → AttemptResult) : List Ev :=
  retryGo f 3 0

/-- One call of an unwrapped read (get_terms, get_term_by_term): the
function runs exactly once and any exception propagates as is. -/
def plainRun (f : Nat → AttemptResult) : List Ev :=
  Ev.call 0 ::
    match f 0 with
    | .success v => [Ev.ret v]
    | .opErrLocked => [Ev.raiseLocked]
    | .opErrOther => [Ev.raiseOther]
    | .nonOpErr => [Ev.raiseNonOp]

/-- Invocation count in a trace. -/
def callsOf : List Ev → Nat
  | [] => 0
  | Ev.call _ :: rest => callsOf rest + 1
  | _ :: rest => callsOf rest

/-- The sleep durations of a trace, in order. -/
def sleepsOf : List Ev → List Nat
  | [] => []
  | Ev.sleepMs ms :: rest => ms :: sleepsOf rest
  | _ :: rest => sleepsOf rest

/-- Last event of a trace: how the call ended. -/
def finalEv (l : List Ev) : Option Ev := l.getLast?

/-- Every invocation that raises OperationalError (locked or not) is
followed immediately by a rollback, before any sleep or re-raise. -/
def rollbackDiscipline (f : Nat → AttemptResult) : List Ev → Bool
  | [] => true
  | Ev.call k :: rest =>
    (match f k with
     | .opErrLocked | .opErrOther =>
       match rest with
       | Ev.rollback :: _ => true
       | _ => false
     | _ => true) && rollbackDiscipline f rest
  | _ :: rest => rollbackDiscipline f rest

/-! ## Listing (ORDER BY semantics) -/

/-- The sortable columns of the Term model. -/
inductive SortKey where
  | byId
  | byTerm
  | byDefinition
  | byCreated
  | byUpdated
deriving Repr, DecidableEq

/-- getattr(Term, s, default): the Term class attribute named s when the
model has one, none otherwise.  id, term, definition, created_at and
updated_at are all mapped columns and all found. -/
def termAttrColumn : String → Option SortKey
  | "id" => some .byId
  | "term" => some .byTerm
  | "definition" => some .byDefinition
  | "created_at" => some .byCreated
  | "updated_at" => some .byUpdated
  | _ => none

/-- sort_column = getattr(Term, sort_by, Term.created_at) in
crud.get_terms: fall back to created_at only when the name is not an
attribute of Term. -/
def getattrSort (s : String) : SortKey :=
  (termAttrColumn s).getD .byCreated

/-- order restricted to desc (the literal string desc) versus asc
(anything else), as in crud.get_terms. -/
inductive SortOrder where
  | ascO
  | descO
deriving Repr, DecidableEq

/-- order_func from the order query parameter. -/
def orderFunc (order : String) : SortOrder :=
  if order = "desc" then .descO else .ascO

/-- Weak comparison of two rows on one column. -/
def keyLe (k : SortKey) (a b : Term) : Bool :=
  match k with
  | .byId => decide (a.id ≤ b.id)
  | .byTerm => decide (a.term ≤ b.term)
  | .byDefinition => decide (a.definition ≤ b.definition)
  | .byCreated => decide (a.created_at ≤ b.created_at)
  | .byUpdated => decide (a.updated_at ≤ b.updated_at)

/-- Comparison the ORDER BY imposes on adjacent output rows. -/
def cmpB (k : SortKey) (o : SortOrder) (a b : Term) : Bool :=
  match o with
  | .ascO => keyLe k a b
  | .descO => keyLe k b a

/-- Adjacent-pairs check of a Boolean relation along a list. -/
def chainB (r : Term → Term → Bool) : List Term → Bool
  | [] => true
  | [_] => true
  | a :: b :: rest => r a b && chainB r (b :: rest)

/-- What SELECT ... ORDER BY key dir with no tie-break clause guarantees
about an output: it is a permutation of the stored rows and adjacent
output rows respect the sort column.  Rows equal on the column may come
out in any relative order, and nothing pins that order across calls. -/
def IsOrderByResult (k : SortKey) (o : SortOrder) (rows out : List Term) : Prop :=
  rows.Perm out ∧ chainB (cmpB k o) out = true

instance (k : SortKey) (o : SortOrder) (rows out : List Term) :
    Decidable (IsOrderByResult k o rows out) :=
  inferInstanceAs (Decidable (And _ _))

/-- crud.get_terms: query(Term).order_by(order_func(sort_column)).all(),
as the predicate on possible outputs. -/
def get_terms_spec (db : RestDB) (sort_by order : String) (out : List Term) : Prop :=
  IsOrderByResult (getattrSort sort_by) (orderFunc order) db.rows out

/-- database.get_all_terms: SELECT * FROM terms ORDER BY created_at DESC,
as the predicate on possible outputs. -/
def get_all_terms_spec (db : GrpcDB) (out : List Term) : Prop :=
  IsOrderByResult .byCreated .descO db.rows out

/-- Do rows tying on the sort column always appear in ascending id order?
This is the ordering the specification promises; the queries do not
request it. -/
def tiesById (k : SortKey) : List Term → Bool
  | [] => true
  | [_] => true
  | a :: b :: rest =>
    (if keyLe k a b && keyLe k b a then decide (a.id < b.id) else true)
      && tiesById k (b :: rest)

/-! ## Runs of RPC operations (for id assignment across a history) -/

/-- One client operation against the grpc service. -/
inductive GOp where
  | gcreate (t d : String) (now : Nat)
  | gupdate (t d : String) (now : Nat)
  | gdelete (t : String)
deriving Repr, DecidableEq

/-- Execute one operation through the servicer; also report the id a
successful create assigned. -/
def grpcStep (db : GrpcDB) : GOp → GrpcDB × Option Nat
  | .gcreate t d now =>
    match CreateTerm db t d now with
    | (db2, _, some row) => (db2, some row.id)
    | (db2, _, none) => (db2, none)
  | .gupdate t d now => ((UpdateTerm db t d now).1, none)
  | .gdelete t => ((DeleteTerm db t).1, none)

/-- Execute a whole history; collect the ids assigned by creates in
order. -/
def grpcRunIds : GrpcDB → List GOp → GrpcDB × List Nat
  | db, [] => (db, [])
  | db, op :: ops =>
    let s := grpcStep db op
    let rest := grpcRunIds s.1 ops
    (rest.1, s.2.toList ++ rest.2)

/-- The AUTOINCREMENT bookkeeping invariant: the sqlite_sequence entry
dominates every live rowid.  SQLite maintains it; an empty fresh table has
seq = 0. -/
def SeqInv (db : GrpcDB) : Prop := maxId db.rows ≤ db.seq

instance (db : GrpcDB) : Decidable (SeqInv db) :=
  inferInstanceAs (Decidable (_ ≤ _))

/-- No two rows of the list agree on the sort column (no ties). -/
def DistinctKeys (k : SortKey) (rows : List Term) : Prop :=
  rows.Pairwise (fun a b => ¬(keyLe k a b = true ∧ keyLe k b a = true))

instance (k : SortKey) (rows : List Term) : Decidable (DistinctKeys k rows) :=
  inferInstanceAs (Decidable (List.Pairwise _ _))

/-- The protocol-independent outcome kind of one operation: success,
not-found, conflict, validation failure, or an unhandled server-side
error. -/
inductive Kind where
  | successK
  | notFoundK
  | conflictK
  | validationK
  | serverErrorK
deriving Repr, DecidableEq

/-- Outcome kind reported by the text/JSON adapter. -/
def restKind : RestResult → Kind
  | .ok200 _ => .successK
  | .created201 _ => .successK
  | .deleted200 => .successK
  | .notFound404 => .notFoundK
  | .conflict409 => .conflictK
  | .unprocessable422 => .validationK
  | .integrity500 => .serverErrorK

/-- Outcome kind reported by the binary RPC adapter. -/
def grpcKind : GrpcStatus → Kind
  | .okS => .successK
  | .invalidArgument => .validationK
  | .notFoundS => .notFoundK
  | .alreadyExists => .conflictK

/-- Timestamp invariant of a table: no record was updated before it was
created. -/
def TsInv (rows : List Term) : Prop :=
  ∀ x ∈ rows, x.created_at ≤ x.updated_at

/-! ## Basic facts about maxId / findTerm / countTerm -/

theorem mem_le_maxId {rows : List Term} {r : Term} (h : r ∈ rows) :
    r.id ≤ maxId rows := by
  induction rows with
  | nil => cases h
  | cons a rest ih =>
    rcases List.mem_cons.mp h with h1 | h2
    · subst h1; exact le_max_left _ _
    · exact le_trans (ih h2) (le_max_right _ _)

theorem maxId_append (rows : List Term) (r : Term) :
    maxId (rows ++ [r]) = max (maxId rows) r.id := by
  induction rows with
  | nil => simp [maxId]
  | cons a rest ih =>
    simp only [List.cons_append, maxId, List.append_eq, ih]
    rw [max_assoc]

theorem maxId_filter_le (rows : List Term) (p : Term → Bool) :
    maxId (rows.filter p) ≤ maxId rows := by
  induction rows with
  | nil => simp [maxId]
  | cons a rest ih =>
    by_cases hp : p a
    · rw [List.filter_cons_of_pos hp]
      simp only [maxId]
      exact max_le_max le_rfl ih
    · rw [List.filter_cons_of_neg (by simpa using hp)]
      simp only [maxId]
      exact le_trans ih (le_max_right _ _)

theorem maxId_map_same_id (rows : List Term) (f : Term → Term)
    (h : ∀ x, (f x).id = x.id) : maxId (rows.map f) = maxId rows := by
  induction rows with
  | nil => rfl
  | cons a rest ih =>
    simp only [List.map_cons, maxId, h a, ih]

theorem findTerm_mem {rows : List Term} {t : String} {r : Term}
    (h : findTerm rows t = some r) : r ∈ rows ∧ r.term = t := by
  have hm := List.find?_some h
  have hmem := List.mem_of_find?_eq_some h
  exact ⟨hmem, by simpa using hm⟩

theorem findTerm_eq_none_iff {rows : List Term} {t : String} :
    findTerm rows t = none ↔ hasTerm rows t = false := by
  constructor
  · intro h
    by_contra hc
    have : hasTerm rows t = true := by
      cases hht : hasTerm rows t
      · exact absurd hht hc
      · rfl
    rcases List.any_eq_true.mp this with ⟨r, hr, hrt⟩
    rcases List.find?_eq_none.mp h r hr with hno
    exact absurd hrt (by simpa using hno)
  · intro h
    apply List.find?_eq_none.mpr
    intro r hr
    intro hc
    have : hasTerm rows t = true := List.any_eq_true.mpr ⟨r, hr, hc⟩
    rw [h] at this
    cases this

theorem findTerm_isSome_of_hasTerm {rows : List Term} {t : String}
    (h : hasTerm rows t = true) : ∃ r, findTerm rows t = some r := by
  cases hf : findTerm rows t with
  | some r => exact ⟨r, rfl⟩
  | none =>
    rw [findTerm_eq_none_iff.mp hf] at h
    cases h

/-! ## Facts about chains and ORDER BY determinism -/

theorem chainB_tail {r : Term → Term → Bool} {a : Term} {l : List Term}
    (h : chainB r (a :: l) = true) : chainB r l = true := by
  cases l with
  | nil => rfl
  | cons b rest =>
    simp only [chainB, Bool.and_eq_true] at h
    exact h.2

theorem chainB_head {r : Term → Term → Bool} {a b : Term} {l : List Term}
    (h : chainB r (a :: b :: l) = true) : r a b = true := by
  simp only [chainB, Bool.and_eq_true] at h
  exact h.1

theorem chainB_head_all {r : Term → Term → Bool}
    (htr : ∀ a b c, r a b = true → r b c = true → r a c = true)
    {a : Term} {l : List Term} (h : chainB r (a :: l) = true) :
    ∀ x ∈ l, r a x = true := by
  induction l generalizing a with
  | nil => intro x hx; cases hx
  | cons b rest ih =>
    intro x hx
    have hab := chainB_head h
    rcases List.mem_cons.mp hx with h1 | h2
    · subst h1; exact hab
    · exact htr _ _ _ hab (ih (chainB_tail h) x h2)

/-- Two outputs that are permutations of each other, both weakly chained
under a total transitive Boolean relation, coincide as soon as no two
distinct elements of the first tie (compare both ways). -/
theorem chain_perm_unique (r : Term → Term → Bool)
    (htr : ∀ a b c, r a b = true → r b c = true → r a c = true) :
    ∀ (l1 l2 : List Term), l1.Perm l2 →
      l1.Pairwise (fun a b => ¬(r a b = true ∧ r b a = true)) →
      chainB r l1 = true → chainB r l2 = true → l1 = l2 := by
  intro l1
  induction l1 with
  | nil =>
    intro l2 hp _ _ _
    exact (List.Perm.nil_eq hp).symm ▸ rfl
  | cons a t1 ih =>
    intro l2 hp hpw h1 h2
    cases l2 with
    | nil => exact absurd hp.symm (by simp)
    | cons b t2 =>
      have hpw2 := (List.pairwise_cons.mp hpw)
      by_cases hab : b = a
      · subst hab
        have ht : t1.Perm t2 := hp.cons_inv
        have := ih t2 ht hpw2.2 (chainB_tail h1) (chainB_tail h2)
        rw [this]
      · exfalso
        have hbmem : b ∈ a :: t1 := hp.symm.subset (List.mem_cons_self _ _)
        have hamem : a ∈ b :: t2 := hp.subset (List.mem_cons_self _ _)
        have hbt1 : b ∈ t1 := by
          rcases List.mem_cons.mp hbmem with h | h
          · exact absurd h hab
          · exact h
        have hat2 : a ∈ t2 := by
          rcases List.mem_cons.mp hamem with h | h
          · exact absurd h.symm hab
          · exact h
        have hrab : r a b = true := chainB_head_all htr h1 b hbt1
        have hrba : r b a = true := chainB_head_all htr h2 a hat2
        exact hpw2.1 b hbt1 ⟨hrab, hrba⟩

theorem keyLe_total (k : SortKey) (a b : Term) :
    keyLe k a b = true ∨ keyLe k b a = true := by
  cases k <;> simp only [keyLe, decide_eq_true_eq] <;> exact le_total _ _

theorem keyLe_trans (k : SortKey) (a b c : Term)
    (h1 : keyLe k a b = true) (h2 : keyLe k b c = true) :
    keyLe k a c = true := by
  cases k <;> simp only [keyLe, decide_eq_true_eq] at * <;> exact le_trans h1 h2

theorem cmpB_trans (k : SortKey) (o : SortOrder) (a b c : Term)
    (h1 : cmpB k o a b = true) (h2 : cmpB k o b c = true) :
    cmpB k o a c = true := by
  cases o <;> simp only [cmpB] at *
  · exact keyLe_trans k a b c h1 h2
  · exact keyLe_trans k c b a h2 h1

theorem cmpB_no_tie_of_keyLe {k : SortKey} {o : SortOrder} {a b : Term}
    (h : ¬(keyLe k a b = true ∧ keyLe k b a = true)) :
    ¬(cmpB k o a b = true ∧ cmpB k o b a = true) := by
  cases o <;> simp only [cmpB]
  · exact h
  · exact fun hc => h ⟨hc.2, hc.1⟩

/-! ## Facts about insert, lookup and count -/

theorem countTerm_eq_zero_iff {rows : List Term} {t : String} :
    countTerm rows t = 0 ↔ hasTerm rows t = false := by
  induction rows with
  | nil => simp [countTerm, hasTerm]
  | cons a rest ih =>
    by_cases ha : a.term == t
    · simp [countTerm, hasTerm, List.filter, ha]
    · simp only [countTerm, hasTerm, List.filter, List.any_cons, ha] at *
      simp only [Bool.false_or, ha, Bool.false_eq_true, if_false]
      exact ih

theorem countTerm_append_match {rows : List Term} {t : String} {row : Term}
    (h : row.term = t) :
    countTerm (rows ++ [row]) t = countTerm rows t + 1 := by
  simp [countTerm, List.filter_append, h]

theorem findTerm_append_absent {rows : List Term} {t : String} {row : Term}
    (habs : hasTerm rows t = false) (hrow : row.term = t) :
    findTerm (rows ++ [row]) t = some row := by
  induction rows with
  | nil => simp [findTerm, List.find?, hrow]
  | cons a rest ih =>
    simp only [hasTerm, List.any_cons, Bool.or_eq_false_iff] at habs
    simp only [List.cons_append, findTerm, List.find?, habs.1]
    exact ih (by simpa [hasTerm] using habs.2)

theorem two_le_length_of_mem_ne {l : List Term} {x y : Term}
    (hx : x ∈ l) (hy : y ∈ l) (hne : x ≠ y) : 2 ≤ l.length := by
  cases l with
  | nil => cases hx
  | cons a rest =>
    cases rest with
    | nil =>
      simp only [List.mem_singleton] at hx hy
      subst hx
      exact absurd hy.symm hne
    | cons b r2 =>
      simp only [List.length]
      omega

theorem findTerm_filter_ne_id {rows : List Term} {t : String} {r : Term}
    (hfind : findTerm rows t = some r) (hcount : countTerm rows t ≤ 1) :
    findTerm (rows.filter (fun x => x.id ≠ r.id)) t = none := by
  rw [findTerm_eq_none_iff]
  by_contra hc
  have hsome : hasTerm (rows.filter (fun x => x.id ≠ r.id)) t = true := by
    cases hh : hasTerm (rows.filter (fun x => x.id ≠ r.id)) t
    · exact absurd hh hc
    · rfl
  rcases List.any_eq_true.mp hsome with ⟨x, hxmem, hxt⟩
  rcases List.mem_filter.mp hxmem with ⟨hxrows, hxid⟩
  have hrmem := (findTerm_mem hfind).1
  have hrt : r.term = t := (findTerm_mem hfind).2
  have hxne : x ≠ r := by
    intro he
    subst he
    simp at hxid
  have hxt2 : x.term = t := by simpa using hxt
  have hxf : x ∈ rows.filter (fun y => y.term == t) :=
    List.mem_filter.mpr ⟨hxrows, by simp [hxt2]⟩
  have hrf : r ∈ rows.filter (fun y => y.term == t) :=
    List.mem_filter.mpr ⟨hrmem, by simp [hrt]⟩
  have h2 : 2 ≤ countTerm rows t := two_le_length_of_mem_ne hxf hrf hxne
  omega

theorem findTerm_update_map {rows : List Term} {t : String} {r r2 : Term}
    (hfind : findTerm rows t = some r) (hterm : r2.term = r.term) :
    findTerm (rows.map (fun x => if x.id = r.id then r2 else x)) t = some r2 := by
  have hrt : r.term = t := (findTerm_mem hfind).2
  induction rows with
  | nil => simp [findTerm, List.find?] at hfind
  | cons a rest ih =>
    by_cases ha : a.term == t
    · have hra : r = a := by
        simp only [findTerm, List.find?, ha] at hfind
        exact (Option.some.injEq _ _ ▸ hfind).symm ▸ rfl
      subst hra
      simp only [List.map_cons, findTerm, List.find?, if_pos rfl]
      have : (r2.term == t) = true := by simp [hterm, hrt]
      simp [this]
    · simp only [findTerm, List.find?, ha] at hfind
      by_cases hid : a.id = r.id
      · simp only [List.map_cons, findTerm, List.find?, if_pos hid]
        have : (r2.term == t) = true := by simp [hterm, hrt]
        simp [this]
      · simp only [List.map_cons, findTerm, List.find?, if_neg hid, ha]
        exact ih hfind

/-! ## Facts about the AUTOINCREMENT id discipline of the RPC store -/

theorem grpcStep_spec (db : GrpcDB) (op : GOp) (hinv : SeqInv db) :
    SeqInv (grpcStep db op).1 ∧ db.seq ≤ (grpcStep db op).1.seq ∧
      ∀ i, (grpcStep db op).2 = some i →
        db.seq < i ∧ (grpcStep db op).1.seq = i := by
  cases op with
  | gcreate t d now =>
    simp only [grpcStep, CreateTerm]
    by_cases h0 : (t.length = 0 || d.length = 0 : Bool) = true
    · simp [h0, hinv]
    · simp only [Bool.not_eq_true] at h0
      simp only [h0, Bool.false_eq_true, if_false]
      by_cases hex : hasTerm db.rows t = true
      · simp [grpc_create_term, hex, hinv]
      · simp only [Bool.not_eq_true] at hex
        have hmax : max db.seq (maxId db.rows) = db.seq := max_eq_left hinv
        simp only [grpc_create_term, hex, Bool.false_eq_true, if_false]
        refine ⟨?_, ?_, ?_⟩
        · show maxId (db.rows ++ [_]) ≤ _
          rw [maxId_append]
          simp only [grpcNextId, hmax]
          exact max_le (by omega) (by omega)
        · simp [grpcNextId, hmax]
        · intro i hi
          simp only [Option.some.injEq] at hi
          subst hi
          simp [grpcNextId, hmax]
  | gupdate t d now =>
    simp only [grpcStep, UpdateTerm]
    by_cases h0 : (t.length = 0 || d.length = 0 : Bool) = true
    · simp [h0, hinv]
    · simp only [Bool.not_eq_true] at h0
      simp only [h0, Bool.false_eq_true, if_false]
      cases hf : findTerm db.rows t with
      | none => simp [grpc_update_term, hf, hinv]
      | some r =>
        simp only [grpc_update_term, hf]
        refine ⟨?_, le_refl _, by simp⟩
        show maxId (db.rows.map _) ≤ db.seq
        rw [maxId_map_same_id]
        · exact hinv
        · intro x
          by_cases hx : x.id = r.id <;> simp [hx]
  | gdelete t =>
    simp only [grpcStep, DeleteTerm]
    by_cases h0 : t.length = 0
    · simp [h0, hinv]
    · simp only [h0, if_false]
      cases hf : findTerm db.rows t with
      | none => simp [grpc_delete_term, hf, hinv]
      | some r =>
        simp only [grpc_delete_term, hf]
        refine ⟨?_, le_refl _, by simp⟩
        exact le_trans (maxId_filter_le _ _) hinv

theorem grpcRunIds_spec (ops : List GOp) (db : GrpcDB) (hinv : SeqInv db) :
    SeqInv (grpcRunIds db ops).1 ∧ db.seq ≤ (grpcRunIds db ops).1.seq ∧
      List.Chain' (· < ·) (grpcRunIds db ops).2 ∧
      ∀ i ∈ (grpcRunIds db ops).2, db.seq < i := by
  induction ops generalizing db with
  | nil => simpa [grpcRunIds] using hinv
  | cons op ops ih =>
    obtain ⟨hstepinv, hstepseq, hstepid⟩ := grpcStep_spec db op hinv
    obtain ⟨hrinv, hrseq, hrchain, hrgt⟩ := ih (grpcStep db op).1 hstepinv
    simp only [grpcRunIds]
    refine ⟨hrinv, le_trans hstepseq hrseq, ?_, ?_⟩
    · cases hs : (grpcStep db op).2 with
      | none => simpa using hrchain
      | some i =>
        obtain ⟨hlt, hseqeq⟩ := hstepid i hs
        simp only [hs, Option.toList_some, List.singleton_append]
        apply List.chain'_cons'.mpr
        refine ⟨?_, hrchain⟩
        intro j hj
        have hjmem : j ∈ (grpcRunIds (grpcStep db op).1 ops).2 :=
          List.mem_of_mem_head? hj
        have := hrgt j hjmem
        omega
    · intro i hi
      cases hs : (grpcStep db op).2 with
      | none =>
        simp only [hs, Option.toList_none, List.nil_append] at hi
        exact lt_of_le_of_lt hstepseq (hrgt i hi)
      | some j =>
        obtain ⟨hlt, hseqeq⟩ := hstepid j hs
        simp only [hs, Option.toList_some, List.singleton_append,
          List.mem_cons] at hi
        rcases hi with h | h
        · omega
        · have := hrgt i h
          omega

/-! ## Claim theorems -/

/-- C2: the retry wrapper around the mutating operations makes at most 3
invocations; its sleeps are 50 * 2 ^ attempt milliseconds starting at
attempt 0, hence a prefix of [50, 100] and non-decreasing; when all three
attempts hit lock contention the trace is exactly call, rollback, sleep
50ms, call, rollback, sleep 100ms, call, rollback, propagate the
contention error; a success returns at once; a non-contention
OperationalError and a non-OperationalError both propagate from the first
attempt without any retry; and an unwrapped read invokes its operation
exactly once whatever happens. -/
theorem retry_policy_correct (f : Nat → AttemptResult) :
    callsOf (retryRun f) ≤ 3 ∧
    (sleepsOf (retryRun f) = [] ∨ sleepsOf (retryRun f) = [50] ∨
      sleepsOf (retryRun f) = [50, 100]) ∧
    (f 0 = .opErrLocked → f 1 = .opErrLocked → f 2 = .opErrLocked →
      retryRun f = [.call 0, .rollback, .sleepMs (50 * 2 ^ 0), .call 1,
        .rollback, .sleepMs (50 * 2 ^ 1), .call 2, .rollback, .raiseLocked]) ∧
    (∀ v, f 0 = .success v → retryRun f = [.call 0, .ret v]) ∧
    (f 0 = .opErrOther → retryRun f = [.call 0, .rollback, .raiseOther]) ∧
    (f 0 = .nonOpErr → retryRun f = [.call 0, .raiseNonOp]) ∧
    (f 0 = .opErrLocked → f 1 = .opErrOther →
      retryRun f = [.call 0, .rollback, .sleepMs 50, .call 1, .rollback,
        .raiseOther]) ∧
    callsOf (plainRun f) = 1 := by
  cases h0 : f 0 <;> cases h1 : f 1 <;> cases h2 : f 2 <;>
    simp [retryRun, retryGo, plainRun, callsOf, sleepsOf, h0, h1, h2]

/-- Witness for C2: with lock contention on every attempt the wrapper
produces exactly the three-call trace with 50ms and 100ms waits. -/
theorem retry_policy_correct_witness :
    retryRun (fun _ => AttemptResult.opErrLocked) =
      [.call 0, .rollback, .sleepMs (50 * 2 ^ 0), .call 1, .rollback,
        .sleepMs (50 * 2 ^ 1), .call 2, .rollback, .raiseLocked] :=
  (retry_policy_correct (fun _ => AttemptResult.opErrLocked)).2.2.1 rfl rfl rfl

/-- C10: inside the retry wrapper, every invocation that fails with an
OperationalError (lock contention or not) is followed immediately by a
session rollback, before any sleep-and-retry and before any re-raise, so
each failed attempt leaves the session clean. -/
theorem retry_rolls_back_every_operational_error (f : Nat → AttemptResult) :
    rollbackDiscipline f (retryRun f) = true := by
  cases h0 : f 0 <;> cases h1 : f 1 <;> cases h2 : f 2 <;>
    simp [retryRun, retryGo, rollbackDiscipline, h0, h1, h2]

/-- Counterexample to C7: getattr(Term, sort_by, Term.created_at) finds
the id and definition columns, so sort_by = id sorts by id instead of
falling back to created_at: with rows whose id order is the reverse of
their created_at order, the ascending id listing is a valid output of the
query the code issues but not of the created_at query the claim
predicts. -/
theorem sort_allowlist_counterexample :
    getattrSort "id" = SortKey.byId ∧
    getattrSort "definition" = SortKey.byDefinition ∧
    get_terms_spec ⟨[⟨1, "a", "x", 10, 10⟩, ⟨2, "b", "y", 5, 5⟩]⟩ "id" "asc"
      [⟨1, "a", "x", 10, 10⟩, ⟨2, "b", "y", 5, 5⟩] ∧
    ¬ IsOrderByResult .byCreated .ascO
      [⟨1, "a", "x", 10, 10⟩, ⟨2, "b", "y", 5, 5⟩]
      [⟨1, "a", "x", 10, 10⟩, ⟨2, "b", "y", 5, 5⟩] := by
  refine ⟨rfl, rfl, ?_, ?_⟩
  · exact ⟨List.Perm.refl _, by decide⟩
  · intro h
    have := h.2
    simp [chainB, cmpB, keyLe] at this

/-- C7 as amended: the listing falls back to created_at exactly for
sort_by values that are not attributes of the Term model; the five mapped
columns, id and definition included, are all accepted and sorted on
directly, whatever the direction. -/
theorem sort_field_resolution (s : String) (h : termAttrColumn s = none) :
    getattrSort s = SortKey.byCreated ∧
    getattrSort "term" = SortKey.byTerm ∧
    getattrSort "created_at" = SortKey.byCreated ∧
    getattrSort "updated_at" = SortKey.byUpdated ∧
    getattrSort "id" = SortKey.byId ∧
    getattrSort "definition" = SortKey.byDefinition := by
  refine ⟨?_, rfl, rfl, rfl, rfl, rfl⟩
  simp [getattrSort, h]

/-- Witness for C7 as amended: the string foo is not a Term attribute and
resolves to created_at. -/
theorem sort_field_resolution_witness :
    getattrSort "foo" = SortKey.byCreated ∧
    getattrSort "term" = SortKey.byTerm ∧
    getattrSort "created_at" = SortKey.byCreated ∧
    getattrSort "updated_at" = SortKey.byUpdated ∧
    getattrSort "id" = SortKey.byId ∧
    getattrSort "definition" = SortKey.byDefinition :=
  sort_field_resolution "foo" rfl

/-- Counterexample to C9: an empty term is rejected before the handler
runs and the store is untouched, but FastAPI maps the pydantic validation
failure to HTTP 422, not 400 (no custom exception handler is installed in
main.py). -/
theorem validation_status_counterexample :
    (create_term_endpoint ⟨[]⟩ "" "d" 0 0).1 = (⟨[]⟩ : RestDB) ∧
    (create_term_endpoint ⟨[]⟩ "" "d" 0 0).2 = RestResult.unprocessable422 ∧
    statusCode (create_term_endpoint ⟨[]⟩ "" "d" 0 0).2 = 422 ∧
    statusCode (create_term_endpoint ⟨[]⟩ "" "d" 0 0).2 ≠ 400 := by
  refine ⟨rfl, rfl, rfl, by decide⟩

/-- C9 as amended: a create or update whose term or definition is empty is
rejected without modifying either store; the text/JSON adapter reports the
pydantic rejection as HTTP 422 Unprocessable Entity (not 400), and the
binary RPC adapter reports INVALID_ARGUMENT.  The REST update route only
validates the body, its term being a non-empty path segment. -/
theorem empty_input_rejected (db : RestDB) (g : GrpcDB) (t d : String)
    (t1 t2 now : Nat) (h : t.length = 0 ∨ d.length = 0) :
    (create_term_endpoint db t d t1 t2).1 = db ∧
    (create_term_endpoint db t d t1 t2).2 = RestResult.unprocessable422 ∧
    statusCode (create_term_endpoint db t d t1 t2).2 = 422 ∧
    (CreateTerm g t d now).1 = g ∧
    (CreateTerm g t d now).2.1 = GrpcStatus.invalidArgument ∧
    (UpdateTerm g t d now).1 = g ∧
    (UpdateTerm g t d now).2.1 = GrpcStatus.invalidArgument ∧
    (d.length = 0 →
      (update_term_endpoint db t d now).1 = db ∧
      (update_term_endpoint db t d now).2 = RestResult.unprocessable422) := by
  have hb : (t.length = 0 || d.length = 0 : Bool) = true := by
    rcases h with h | h <;> simp [h]
  have hv : validCreateBody t d = false := by
    rcases h with h | h <;> simp [validCreateBody, h]
  refine ⟨?_, ?_, ?_, ?_, ?_, ?_, ?_, ?_⟩
  · simp [create_term_endpoint, create_term_endpoint2, hv]
  · simp [create_term_endpoint, create_term_endpoint2, hv]
  · simp [create_term_endpoint, create_term_endpoint2, hv, statusCode]
  · simp [CreateTerm, hb]
  · simp [CreateTerm, hb]
  · simp [UpdateTerm, hb]
  · simp [UpdateTerm, hb]
  · intro hd
    constructor <;> simp [update_term_endpoint, hd]

/-- Witness for C9 as amended: a non-empty term with an empty definition
is rejected by both adapters on create and update, stores untouched. -/
theorem empty_input_rejected_witness :
    (create_term_endpoint ⟨[]⟩ "x" "" 0 0).1 = (⟨[]⟩ : RestDB) ∧
    (create_term_endpoint ⟨[]⟩ "x" "" 0 0).2 = RestResult.unprocessable422 ∧
    statusCode (create_term_endpoint ⟨[]⟩ "x" "" 0 0).2 = 422 ∧
    (CreateTerm ⟨[], 0⟩ "x" "" 0).1 = (⟨[], 0⟩ : GrpcDB) ∧
    (CreateTerm ⟨[], 0⟩ "x" "" 0).2.1 = GrpcStatus.invalidArgument ∧
    (UpdateTerm ⟨[], 0⟩ "x" "" 0).1 = (⟨[], 0⟩ : GrpcDB) ∧
    (UpdateTerm ⟨[], 0⟩ "x" "" 0).2.1 = GrpcStatus.invalidArgument ∧
    (update_term_endpoint ⟨[]⟩ "x" "" 0).1 = (⟨[]⟩ : RestDB) ∧
    (update_term_endpoint ⟨[]⟩ "x" "" 0).2 = RestResult.unprocessable422 := by
  have h := empty_input_rejected ⟨[]⟩ ⟨[], 0⟩ "x" "" 0 0 0 (Or.inr rfl)
  have hu := h.2.2.2.2.2.2.2 rfl
  exact ⟨h.1, h.2.1, h.2.2.1, h.2.2.2.1, h.2.2.2.2.1, h.2.2.2.2.2.1,
    h.2.2.2.2.2.2.1, hu.1, hu.2⟩

/-- Counterexample to C4: the SQLAlchemy model evaluates the created_at
default and the updated_at default as two separate datetime.utcnow()
calls, so the clock can advance between them: creating at ticks 0 and 1
succeeds and the following get returns a Term whose created_at differs
from its updated_at. -/
theorem create_roundtrip_counterexample :
    (create_term_endpoint ⟨[]⟩ "a" "d" 0 1).2 =
      RestResult.created201 ⟨1, "a", "d", 0, 1⟩ ∧
    get_term_endpoint (create_term_endpoint ⟨[]⟩ "a" "d" 0 1).1 "a" =
      RestResult.ok200 ⟨1, "a", "d", 0, 1⟩ ∧
    (Term.mk 1 "a" "d" 0 1).created_at ≠ (Term.mk 1 "a" "d" 0 1).updated_at := by
  refine ⟨rfl, rfl, by decide⟩

/-- C4 as amended: for non-empty t and d absent from the store, create
followed by get returns a Term with term = t, definition = d and
created_at ≤ updated_at; on the text/JSON store the two timestamps come
from two successive clock reads and are equal only when the clock did not
advance between them, while on the binary RPC store SQLite fixes the
statement time once, so created_at = updated_at holds exactly. -/
theorem create_roundtrip (db : RestDB) (g : GrpcDB) (t d : String)
    (t1 t2 now : Nat) (ht : 1 ≤ t.length) (hd : 1 ≤ d.length) (h12 : t1 ≤ t2)
    (habs : hasTerm db.rows t = false) (habsg : hasTerm g.rows t = false) :
    ∃ row rowg : Term,
      (create_term_endpoint db t d t1 t2).2 = RestResult.created201 row ∧
      get_term_endpoint (create_term_endpoint db t d t1 t2).1 t =
        RestResult.ok200 row ∧
      row.term = t ∧ row.definition = d ∧
      row.created_at = t1 ∧ row.updated_at = t2 ∧
      row.created_at ≤ row.updated_at ∧
      (CreateTerm g t d now).2.2 = some rowg ∧
      GetTerm (CreateTerm g t d now).1 t = (GrpcStatus.okS, some rowg) ∧
      rowg.term = t ∧ rowg.definition = d ∧
      rowg.created_at = rowg.updated_at := by
  have hv : validCreateBody t d = true := by
    simp [validCreateBody, ht, hd]
  have htne : ¬ t.length = 0 := by omega
  have hdne : ¬ d.length = 0 := by omega
  have hb : (t.length = 0 || d.length = 0 : Bool) = false := by
    simp [htne, hdne]
  have hfind : findTerm (db.rows ++ [(⟨restNextId db, t, d, t1, t2⟩ : Term)]) t
      = some ⟨restNextId db, t, d, t1, t2⟩ :=
    findTerm_append_absent habs rfl
  have hfindg : findTerm (g.rows ++ [(⟨grpcNextId g, t, d, now, now⟩ : Term)]) t
      = some ⟨grpcNextId g, t, d, now, now⟩ :=
    findTerm_append_absent habsg rfl
  refine ⟨⟨restNextId db, t, d, t1, t2⟩, ⟨grpcNextId g, t, d, now, now⟩,
    ?_, ?_, rfl, rfl, rfl, rfl, h12, ?_, ?_, rfl, rfl, rfl⟩
  · simp [create_term_endpoint, create_term_endpoint2, hv, habs, rest_insert]
  · have hst : (create_term_endpoint db t d t1 t2).1 =
        ⟨db.rows ++ [⟨restNextId db, t, d, t1, t2⟩]⟩ := by
      simp [create_term_endpoint, create_term_endpoint2, hv, habs, rest_insert]
    rw [hst]
    simp [get_term_endpoint, hfind]
  · simp [CreateTerm, hb, grpc_create_term, habsg]
  · have hg : (CreateTerm g t d now).1 =
        ⟨g.rows ++ [⟨grpcNextId g, t, d, now, now⟩], grpcNextId g⟩ := by
      simp [CreateTerm, hb, grpc_create_term, habsg]
    rw [hg]
    simp [GetTerm, htne, get_term_by_name, hfindg]

/-- Witness for C4 as amended: creating the pair (a, d) in empty stores at
one clock tick and reading it back. -/
theorem create_roundtrip_witness :
    ∃ row rowg : Term,
      (create_term_endpoint ⟨[]⟩ "a" "d" 7 7).2 = RestResult.created201 row ∧
      get_term_endpoint (create_term_endpoint ⟨[]⟩ "a" "d" 7 7).1 "a" =
        RestResult.ok200 row ∧
      row.term = "a" ∧ row.definition = "d" ∧
      row.created_at = 7 ∧ row.updated_at = 7 ∧
      row.created_at ≤ row.updated_at ∧
      (CreateTerm ⟨[], 0⟩ "a" "d" 7).2.2 = some rowg ∧
      GetTerm (CreateTerm ⟨[], 0⟩ "a" "d" 7).1 "a" =
        (GrpcStatus.okS, some rowg) ∧
      rowg.term = "a" ∧ rowg.definition = "d" ∧
      rowg.created_at = rowg.updated_at :=
  create_roundtrip ⟨[]⟩ ⟨[], 0⟩ "a" "d" 7 7 7 (by decide) (by decide)
    (le_refl 7) rfl rfl

/-- Counterexample to C5: both stores stamp updated_at with the current
clock reading (datetime.utcnow with microsecond resolution, datetime(now)
with one-second resolution), so an update in the same clock tick as the
previous write sets updated_at to the same value as before — not strictly
greater: a record created at tick 5 and updated at tick 5 keeps
updated_at = 5 on both adapters. -/
theorem update_strict_counterexample :
    (update_term_endpoint ⟨[⟨1, "a", "d", 5, 5⟩]⟩ "a" "e" 5).2 =
      RestResult.ok200 ⟨1, "a", "e", 5, 5⟩ ∧
    (UpdateTerm ⟨[⟨1, "a", "d", 5, 5⟩], 1⟩ "a" "e" 5).2.2 =
      some ⟨1, "a", "e", 5, 5⟩ ∧
    ¬ (Term.mk 1 "a" "d" 5 5).updated_at < (Term.mk 1 "a" "e" 5 5).updated_at := by
  refine ⟨by decide, by decide, by decide⟩

/-- C5 as amended: updated_at ≥ created_at holds for the updated record
and is preserved by every operation on both stores; an update stamps
updated_at with the current clock value, which is at least the previous
updated_at whenever the clock has not gone backwards, and strictly greater
exactly when the clock advanced past the previous updated_at — an update
within the same tick (same microsecond, or same second on the RPC store)
leaves updated_at equal, not strictly greater. -/
theorem update_monotonicity
    (db : RestDB) (g : GrpcDB) (t d : String) (now : Nat) (r rg : Term)
    (hd : 1 ≤ d.length) (ht : 1 ≤ t.length)
    (hf : findTerm db.rows t = some r) (hcr : r.created_at ≤ now)
    (hfg : findTerm g.rows t = some rg) (hcrg : rg.created_at ≤ now) :
    (∃ r2 : Term,
      (update_term_endpoint db t d now).2 = RestResult.ok200 r2 ∧
      get_term_endpoint (update_term_endpoint db t d now).1 t =
        RestResult.ok200 r2 ∧
      r2.created_at = r.created_at ∧ r2.updated_at = now ∧
      r2.created_at ≤ r2.updated_at ∧
      (r.updated_at ≤ now → r.updated_at ≤ r2.updated_at) ∧
      (r.updated_at < now → r.updated_at < r2.updated_at)) ∧
    (∃ rg2 : Term,
      (UpdateTerm g t d now).2.2 = some rg2 ∧
      GetTerm (UpdateTerm g t d now).1 t = (GrpcStatus.okS, some rg2) ∧
      rg2.created_at = rg.created_at ∧ rg2.updated_at = now ∧
      rg2.created_at ≤ rg2.updated_at ∧
      (rg.updated_at < now → rg.updated_at < rg2.updated_at)) ∧
    (TsInv db.rows → TsInv (update_term_endpoint db t d now).1.rows) ∧
    (TsInv g.rows → TsInv (UpdateTerm g t d now).1.rows) ∧
    (∀ (db2 : RestDB) (s e : String) (u v : Nat), u ≤ v → TsInv db2.rows →
      TsInv (create_term_endpoint db2 s e u v).1.rows) ∧
    (∀ (g2 : GrpcDB) (s e : String) (u : Nat), TsInv g2.rows →
      TsInv (CreateTerm g2 s e u).1.rows) ∧
    (∀ (db2 : RestDB) (s : String), TsInv db2.rows →
      TsInv (delete_term_endpoint db2 s).1.rows) ∧
    (∀ (g2 : GrpcDB) (s : String), TsInv g2.rows →
      TsInv (DeleteTerm g2 s).1.rows) := by
  have htne : ¬ t.length = 0 := by omega
  have hdne : ¬ d.length = 0 := by omega
  have hb : (t.length = 0 || d.length = 0 : Bool) = false := by
    simp [htne, hdne]
  have hrt : r.term = t := (findTerm_mem hf).2
  have hrgt : rg.term = t := (findTerm_mem hfg).2
  have hdv : (decide (1 ≤ d.length) : Bool) = true := by simp [hd]
  have hrest : update_term_endpoint db t d now =
      (⟨db.rows.map (fun x => if x.id = r.id then
          { r with definition := d, updated_at := now } else x)⟩,
        RestResult.ok200 { r with definition := d, updated_at := now }) := by
    simp [update_term_endpoint, hdv, hf]
  have hgrpc : UpdateTerm g t d now =
      (⟨g.rows.map (fun x => if x.id = rg.id then
          { rg with definition := d, updated_at := now } else x), g.seq⟩,
        GrpcStatus.okS,
        some { rg with definition := d, updated_at := now }) := by
    simp [UpdateTerm, hb, grpc_update_term, hfg]
  have hfu : findTerm (db.rows.map (fun x => if x.id = r.id then
      { r with definition := d, updated_at := now } else x)) t =
      some { r with definition := d, updated_at := now } :=
    findTerm_update_map hf rfl
  have hfug : findTerm (g.rows.map (fun x => if x.id = rg.id then
      { rg with definition := d, updated_at := now } else x)) t =
      some { rg with definition := d, updated_at := now } :=
    findTerm_update_map hfg rfl
  refine ⟨⟨{ r with definition := d, updated_at := now }, ?_, ?_, rfl, rfl,
      by simpa using hcr, fun h => h, fun h => h⟩,
    ⟨{ rg with definition := d, updated_at := now }, ?_, ?_, rfl, rfl,
      by simpa using hcrg, fun h => h⟩, ?_, ?_, ?_, ?_, ?_, ?_⟩
  · rw [hrest]
  · rw [hrest]
    simp [get_term_endpoint, hfu]
  · rw [hgrpc]
  · rw [hgrpc]
    simp [GetTerm, htne, get_term_by_name, hfug]
  · intro hinv
    rw [hrest]
    intro x hx
    rcases List.mem_map.mp hx with ⟨y, hy, hxy⟩
    by_cases hid : y.id = r.id
    · simp only [hid, if_pos rfl] at hxy
      subst hxy
      simpa using hcr
    · simp only [if_neg hid] at hxy
      subst hxy
      exact hinv y hy
  · intro hinv
    rw [hgrpc]
    intro x hx
    rcases List.mem_map.mp hx with ⟨y, hy, hxy⟩
    by_cases hid : y.id = rg.id
    · simp only [hid, if_pos rfl] at hxy
      subst hxy
      simpa using hcrg
    · simp only [if_neg hid] at hxy
      subst hxy
      exact hinv y hy
  · intro db2 s e u v huv hinv
    by_cases hv2 : validCreateBody s e = true
    · by_cases hex : hasTerm db2.rows s = true
      · simpa [create_term_endpoint, create_term_endpoint2, hv2, hex]
          using hinv
      · simp only [Bool.not_eq_true] at hex
        simp only [create_term_endpoint, create_term_endpoint2, hv2,
          Bool.true_eq_false, if_false, hex, rest_insert, Bool.false_eq_true]
        intro x hx
        rcases List.mem_append.mp hx with h | h
        · exact hinv x h
        · simp only [List.mem_singleton] at h
          subst h
          exact huv
    · simp only [Bool.not_eq_true] at hv2
      simpa [create_term_endpoint, create_term_endpoint2, hv2] using hinv
  · intro g2 s e u hinv
    by_cases h0 : (s.length = 0 || e.length = 0 : Bool) = true
    · simpa [CreateTerm, h0] using hinv
    · simp only [Bool.not_eq_true] at h0
      by_cases hex : hasTerm g2.rows s = true
      · simpa [CreateTerm, h0, grpc_create_term, hex] using hinv
      · simp only [Bool.not_eq_true] at hex
        simp only [CreateTerm, h0, Bool.false_eq_true, if_false,
          grpc_create_term, hex]
        intro x hx
        rcases List.mem_append.mp hx with h | h
        · exact hinv x h
        · simp only [List.mem_singleton] at h
          subst h
          exact le_refl _
  · intro db2 s hinv
    cases hf2 : findTerm db2.rows s with
    | none => simpa [delete_term_endpoint, hf2] using hinv
    | some rr =>
      simp only [delete_term_endpoint, hf2]
      intro x hx
      exact hinv x (List.mem_filter.mp hx).1
  · intro g2 s hinv
    by_cases h0 : s.length = 0
    · simpa [DeleteTerm, h0] using hinv
    · cases hf2 : findTerm g2.rows s with
      | none => simpa [DeleteTerm, h0, grpc_delete_term, hf2] using hinv
      | some rr =>
        simp only [DeleteTerm, h0, if_false, grpc_delete_term, hf2]
        intro x hx
        exact hinv x (List.mem_filter.mp hx).1

/-- Witness for C5 as amended: updating a record created at tick 3 with a
later tick 8 on both stores. -/
theorem update_monotonicity_witness :
    (∃ r2 : Term,
      (update_term_endpoint ⟨[⟨1, "a", "d", 3, 3⟩]⟩ "a" "e" 8).2 =
        RestResult.ok200 r2 ∧
      get_term_endpoint (update_term_endpoint ⟨[⟨1, "a", "d", 3, 3⟩]⟩ "a" "e" 8).1
        "a" = RestResult.ok200 r2 ∧
      r2.created_at = (Term.mk 1 "a" "d" 3 3).created_at ∧ r2.updated_at = 8 ∧
      r2.created_at ≤ r2.updated_at ∧
      ((Term.mk 1 "a" "d" 3 3).updated_at ≤ 8 →
        (Term.mk 1 "a" "d" 3 3).updated_at ≤ r2.updated_at) ∧
      ((Term.mk 1 "a" "d" 3 3).updated_at < 8 →
        (Term.mk 1 "a" "d" 3 3).updated_at < r2.updated_at)) ∧
    (∃ rg2 : Term,
      (UpdateTerm ⟨[⟨1, "a", "d", 3, 3⟩], 1⟩ "a" "e" 8).2.2 = some rg2 ∧
      GetTerm (UpdateTerm ⟨[⟨1, "a", "d", 3, 3⟩], 1⟩ "a" "e" 8).1 "a" =
        (GrpcStatus.okS, some rg2) ∧
      rg2.created_at = (Term.mk 1 "a" "d" 3 3).created_at ∧ rg2.updated_at = 8 ∧
      rg2.created_at ≤ rg2.updated_at ∧
      ((Term.mk 1 "a" "d" 3 3).updated_at < 8 →
        (Term.mk 1 "a" "d" 3 3).updated_at < rg2.updated_at)) ∧
    (TsInv (⟨[⟨1, "a", "d", 3, 3⟩]⟩ : RestDB).rows →
      TsInv (update_term_endpoint ⟨[⟨1, "a", "d", 3, 3⟩]⟩ "a" "e" 8).1.rows) ∧
    (TsInv (⟨[⟨1, "a", "d", 3, 3⟩], 1⟩ : GrpcDB).rows →
      TsInv (UpdateTerm ⟨[⟨1, "a", "d", 3, 3⟩], 1⟩ "a" "e" 8).1.rows) ∧
    (∀ (db2 : RestDB) (s e : String) (u v : Nat), u ≤ v → TsInv db2.rows →
      TsInv (create_term_endpoint db2 s e u v).1.rows) ∧
    (∀ (g2 : GrpcDB) (s e : String) (u : Nat), TsInv g2.rows →
      TsInv (CreateTerm g2 s e u).1.rows) ∧
    (∀ (db2 : RestDB) (s : String), TsInv db2.rows →
      TsInv (delete_term_endpoint db2 s).1.rows) ∧
    (∀ (g2 : GrpcDB) (s : String), TsInv g2.rows →
      TsInv (DeleteTerm g2 s).1.rows) :=
  update_monotonicity ⟨[⟨1, "a", "d", 3, 3⟩]⟩ ⟨[⟨1, "a", "d", 3, 3⟩], 1⟩
    "a" "e" 8 ⟨1, "a", "d", 3, 3⟩ ⟨1, "a", "d", 3, 3⟩ (by decide) (by decide)
    (by decide) (by decide) (by decide) (by decide)

/-- Counterexample to C1: two concurrent REST creates of the term a
against an initially absent key.  The loser passes the handler pre-check
(it still sees the empty store) but its insert hits the committed winner:
the storage constraint blocks the duplicate — only one record exists — yet
the loser surfaces the uncaught IntegrityError as a 500, not the promised
ConflictError 409. -/
theorem create_conflict_counterexample :
    create_term_endpoint2 ⟨[]⟩ (create_term_endpoint ⟨[]⟩ "a" "d" 0 0).1
      "a" "e" 1 1 =
      ((create_term_endpoint ⟨[]⟩ "a" "d" 0 0).1, RestResult.integrity500) ∧
    statusCode RestResult.integrity500 = 500 ∧
    RestResult.integrity500 ≠ RestResult.conflict409 ∧
    countTerm (create_term_endpoint2 ⟨[]⟩
      (create_term_endpoint ⟨[]⟩ "a" "d" 0 0).1 "a" "e" 1 1).1.rows "a" = 1 := by
  refine ⟨rfl, rfl, by decide, rfl⟩

/-- C1 as amended: a create on a present key is answered 409 by the REST
pre-check and ALREADY_EXISTS by the RPC adapter, store unchanged; among
racing creates the storage uniqueness constraint admits exactly one record
whatever the pre-check saw (at most one live record per key is preserved,
and the winner leaves exactly one); but a racing loser whose pre-check
passed receives the uncaught IntegrityError (HTTP 500) on the text/JSON
adapter rather than 409, while the binary RPC adapter answers
ALREADY_EXISTS in both the sequential and the racing case. -/
theorem create_uniqueness
    (dbPre dbIns db : RestDB) (g : GrpcDB) (t d : String) (t1 t2 now : Nat)
    (ht : 1 ≤ t.length) (hd : 1 ≤ d.length) :
    (hasTerm db.rows t = true →
      create_term_endpoint db t d t1 t2 = (db, RestResult.conflict409)) ∧
    (hasTerm dbPre.rows t = false → hasTerm dbIns.rows t = true →
      create_term_endpoint2 dbPre dbIns t d t1 t2 =
        (dbIns, RestResult.integrity500)) ∧
    (hasTerm dbPre.rows t = false → hasTerm dbIns.rows t = false →
      countTerm (create_term_endpoint2 dbPre dbIns t d t1 t2).1.rows t = 1) ∧
    (countTerm dbIns.rows t ≤ 1 →
      countTerm (create_term_endpoint2 dbPre dbIns t d t1 t2).1.rows t ≤ 1) ∧
    (hasTerm g.rows t = true →
      CreateTerm g t d now = (g, GrpcStatus.alreadyExists, none)) := by
  have hv : validCreateBody t d = true := by
    simp [validCreateBody, ht, hd]
  have htne : ¬ t.length = 0 := by omega
  have hdne : ¬ d.length = 0 := by omega
  have hb : (t.length = 0 || d.length = 0 : Bool) = false := by
    simp [htne, hdne]
  refine ⟨?_, ?_, ?_, ?_, ?_⟩
  · intro hex
    simp [create_term_endpoint, create_term_endpoint2, hv, hex]
  · intro hpre hins
    simp [create_term_endpoint2, hv, hpre, rest_insert, hins]
  · intro hpre hins
    have hzero : countTerm dbIns.rows t = 0 := countTerm_eq_zero_iff.mpr hins
    have hres : (create_term_endpoint2 dbPre dbIns t d t1 t2).1 =
        ⟨dbIns.rows ++ [⟨restNextId dbIns, t, d, t1, t2⟩]⟩ := by
      simp [create_term_endpoint2, hv, hpre, rest_insert, hins]
    rw [hres]
    rw [countTerm_append_match rfl, hzero]
  · intro hle
    by_cases hpre : hasTerm dbPre.rows t = true
    · simpa [create_term_endpoint2, hv, hpre] using hle
    · simp only [Bool.not_eq_true] at hpre
      by_cases hins : hasTerm dbIns.rows t = true
      · simpa [create_term_endpoint2, hv, hpre, rest_insert, hins] using hle
      · simp only [Bool.not_eq_true] at hins
        have hzero : countTerm dbIns.rows t = 0 := countTerm_eq_zero_iff.mpr hins
        have hres : (create_term_endpoint2 dbPre dbIns t d t1 t2).1 =
            ⟨dbIns.rows ++ [⟨restNextId dbIns, t, d, t1, t2⟩]⟩ := by
          simp [create_term_endpoint2, hv, hpre, rest_insert, hins]
        rw [hres, countTerm_append_match rfl, hzero]
  · intro hex
    simp [CreateTerm, hb, grpc_create_term, hex]

/-- Witness for C1 as amended: the sequential conflict, the racing loser,
the winner count and the RPC conflict at concrete stores holding the
term a. -/
theorem create_uniqueness_witness :
    (hasTerm (⟨[⟨1, "a", "d", 0, 0⟩]⟩ : RestDB).rows "a" = true →
      create_term_endpoint ⟨[⟨1, "a", "d", 0, 0⟩]⟩ "a" "e" 1 1 =
        (⟨[⟨1, "a", "d", 0, 0⟩]⟩, RestResult.conflict409)) ∧
    (hasTerm (⟨[]⟩ : RestDB).rows "a" = false →
      hasTerm (⟨[⟨1, "a", "d", 0, 0⟩]⟩ : RestDB).rows "a" = true →
      create_term_endpoint2 ⟨[]⟩ ⟨[⟨1, "a", "d", 0, 0⟩]⟩ "a" "e" 1 1 =
        (⟨[⟨1, "a", "d", 0, 0⟩]⟩, RestResult.integrity500)) ∧
    (hasTerm (⟨[]⟩ : RestDB).rows "a" = false →
      hasTerm (⟨[]⟩ : RestDB).rows "a" = false →
      countTerm (create_term_endpoint2 ⟨[]⟩ ⟨[]⟩ "a" "e" 1 1).1.rows "a" = 1) ∧
    (countTerm (⟨[⟨1, "a", "d", 0, 0⟩]⟩ : RestDB).rows "a" ≤ 1 →
      countTerm (create_term_endpoint2 ⟨[]⟩ ⟨[⟨1, "a", "d", 0, 0⟩]⟩
        "a" "e" 1 1).1.rows "a" ≤ 1) ∧
    (hasTerm (⟨[⟨1, "a", "d", 0, 0⟩], 1⟩ : GrpcDB).rows "a" = true →
      CreateTerm ⟨[⟨1, "a", "d", 0, 0⟩], 1⟩ "a" "e" 1 =
        (⟨[⟨1, "a", "d", 0, 0⟩], 1⟩, GrpcStatus.alreadyExists, none)) := by
  have h1 := create_uniqueness ⟨[]⟩ ⟨[⟨1, "a", "d", 0, 0⟩]⟩
    ⟨[⟨1, "a", "d", 0, 0⟩]⟩ ⟨[⟨1, "a", "d", 0, 0⟩], 1⟩ "a" "e" 1 1 1
    (by decide) (by decide)
  have h2 := create_uniqueness ⟨[]⟩ ⟨[]⟩ ⟨[]⟩ ⟨[], 0⟩ "a" "e" 1 1 1
    (by decide) (by decide)
  exact ⟨h1.1, h1.2.1, h2.2.2.1, h1.2.2.2.1, h1.2.2.2.2⟩

/-- Counterexample to C6: the SQLAlchemy Term model declares a plain
INTEGER PRIMARY KEY (no AUTOINCREMENT), so SQLite reassigns
max(live rowid) + 1: create a (id 1), delete a, create a again — the new
record receives id 1, the id of the previously deleted record, so ids are
reused. -/
theorem id_reuse_counterexample :
    (create_term_endpoint ⟨[]⟩ "a" "d" 0 0).2 =
      RestResult.created201 ⟨1, "a", "d", 0, 0⟩ ∧
    (create_term_endpoint (delete_term_endpoint
        (create_term_endpoint ⟨[]⟩ "a" "d" 0 0).1 "a").1 "a" "e" 5 5).2 =
      RestResult.created201 ⟨1, "a", "e", 5, 5⟩ ∧
    (Term.mk 1 "a" "e" 5 5).id = (Term.mk 1 "a" "d" 0 0).id := by
  refine ⟨rfl, rfl, rfl⟩

/-- C6 as amended: on both stores a successful delete makes the key
absent (get answers 404 on the text/JSON adapter, NOT_FOUND on the binary
RPC adapter) and a re-create succeeds exactly as for a fresh key, with
fresh timestamps; on the RPC store (AUTOINCREMENT) every id ever assigned
in a run is strictly increasing and strictly above every id live at the
start, so ids are never reused there; but the text/JSON store assigns
max(live id) + 1, which can repeat the id of a previously deleted
record. -/
theorem delete_finality
    (db : RestDB) (g : GrpcDB) (t d : String) (t1 t2 now : Nat) (r rg : Term)
    (hf : findTerm db.rows t = some r) (hcnt : countTerm db.rows t ≤ 1)
    (hfg : findTerm g.rows t = some rg) (hcntg : countTerm g.rows t ≤ 1)
    (ht : 1 ≤ t.length) (hd : 1 ≤ d.length) (ops : List GOp)
    (hinv : SeqInv g) :
    delete_term_endpoint db t =
      (⟨db.rows.filter (fun x => x.id ≠ r.id)⟩, RestResult.deleted200) ∧
    get_term_endpoint (delete_term_endpoint db t).1 t =
      RestResult.notFound404 ∧
    (create_term_endpoint (delete_term_endpoint db t).1 t d t1 t2).2 =
      RestResult.created201
        ⟨restNextId (delete_term_endpoint db t).1, t, d, t1, t2⟩ ∧
    DeleteTerm g t =
      (⟨g.rows.filter (fun x => x.id ≠ rg.id), g.seq⟩, GrpcStatus.okS) ∧
    GetTerm (DeleteTerm g t).1 t = (GrpcStatus.notFoundS, none) ∧
    (CreateTerm (DeleteTerm g t).1 t d now).2.1 = GrpcStatus.okS ∧
    (CreateTerm (DeleteTerm g t).1 t d now).2.2 =
      some ⟨grpcNextId (DeleteTerm g t).1, t, d, now, now⟩ ∧
    List.Chain' (· < ·) (grpcRunIds g ops).2 ∧
    (∀ rr ∈ g.rows, ∀ i ∈ (grpcRunIds g ops).2, rr.id < i) := by
  have htne : ¬ t.length = 0 := by omega
  have hdne : ¬ d.length = 0 := by omega
  have hb : (t.length = 0 || d.length = 0 : Bool) = false := by
    simp [htne, hdne]
  have hdel : delete_term_endpoint db t =
      (⟨db.rows.filter (fun x => x.id ≠ r.id)⟩, RestResult.deleted200) := by
    simp [delete_term_endpoint, hf]
  have hgone : findTerm (db.rows.filter (fun x => x.id ≠ r.id)) t = none :=
    findTerm_filter_ne_id hf hcnt
  have habs : hasTerm (db.rows.filter (fun x => x.id ≠ r.id)) t = false :=
    findTerm_eq_none_iff.mp hgone
  have hgone2 : findTerm (List.filter (fun x => !decide (x.id = r.id))
      db.rows) t = none := by simpa using hgone
  have habs2 : hasTerm (List.filter (fun x => !decide (x.id = r.id))
      db.rows) t = false := by simpa using habs
  have hdelg : DeleteTerm g t =
      (⟨g.rows.filter (fun x => x.id ≠ rg.id), g.seq⟩, GrpcStatus.okS) := by
    simp [DeleteTerm, htne, grpc_delete_term, hfg]
  have hgoneg : findTerm (g.rows.filter (fun x => x.id ≠ rg.id)) t = none :=
    findTerm_filter_ne_id hfg hcntg
  have habsg : hasTerm (g.rows.filter (fun x => x.id ≠ rg.id)) t = false :=
    findTerm_eq_none_iff.mp hgoneg
  have hgoneg2 : findTerm (List.filter (fun x => !decide (x.id = rg.id))
      g.rows) t = none := by simpa using hgoneg
  have habsg2 : hasTerm (List.filter (fun x => !decide (x.id = rg.id))
      g.rows) t = false := by simpa using habsg
  have hv : validCreateBody t d = true := by
    simp [validCreateBody, ht, hd]
  obtain ⟨_, _, hchain, hgt⟩ := grpcRunIds_spec ops g hinv
  refine ⟨hdel, ?_, ?_, hdelg, ?_, ?_, ?_, hchain, ?_⟩
  · rw [hdel]
    simp [get_term_endpoint, hgone2]
  · rw [hdel]
    simp [create_term_endpoint, create_term_endpoint2, hv, habs2, rest_insert]
  · rw [hdelg]
    simp [GetTerm, htne, get_term_by_name, hgoneg2]
  · rw [hdelg]
    simp [CreateTerm, hb, grpc_create_term, habsg2]
  · rw [hdelg]
    simp [CreateTerm, hb, grpc_create_term, habsg2]
  · intro rr hrr i hi
    have h1 : rr.id ≤ maxId g.rows := mem_le_maxId hrr
    have h2 := hgt i hi
    have h3 : maxId g.rows ≤ g.seq := hinv
    omega

/-- Witness for C6 as amended: both stores hold the single record a;
deleting it, observing not-found, re-creating it with fresh timestamps on
both adapters, and a concrete RPC run (re-create, delete, create) whose
assigned ids are strictly increasing and above the live id 1. -/
theorem delete_finality_witness :
    delete_term_endpoint ⟨[⟨1, "a", "d", 0, 0⟩]⟩ "a" =
      (⟨List.filter (fun x => x.id ≠ 1) [⟨1, "a", "d", 0, 0⟩]⟩,
        RestResult.deleted200) ∧
    get_term_endpoint (delete_term_endpoint ⟨[⟨1, "a", "d", 0, 0⟩]⟩ "a").1 "a" =
      RestResult.notFound404 ∧
    (create_term_endpoint (delete_term_endpoint
        ⟨[⟨1, "a", "d", 0, 0⟩]⟩ "a").1 "a" "e" 5 5).2 =
      RestResult.created201
        ⟨restNextId (delete_term_endpoint ⟨[⟨1, "a", "d", 0, 0⟩]⟩ "a").1,
          "a", "e", 5, 5⟩ ∧
    DeleteTerm ⟨[⟨1, "a", "d", 0, 0⟩], 1⟩ "a" =
      (⟨List.filter (fun x => x.id ≠ 1) [⟨1, "a", "d", 0, 0⟩], 1⟩,
        GrpcStatus.okS) ∧
    GetTerm (DeleteTerm ⟨[⟨1, "a", "d", 0, 0⟩], 1⟩ "a").1 "a" =
      (GrpcStatus.notFoundS, none) ∧
    (CreateTerm (DeleteTerm ⟨[⟨1, "a", "d", 0, 0⟩], 1⟩ "a").1 "a" "e" 5).2.1 =
      GrpcStatus.okS ∧
    (CreateTerm (DeleteTerm ⟨[⟨1, "a", "d", 0, 0⟩], 1⟩ "a").1 "a" "e" 5).2.2 =
      some ⟨grpcNextId (DeleteTerm ⟨[⟨1, "a", "d", 0, 0⟩], 1⟩ "a").1,
        "a", "e", 5, 5⟩ ∧
    List.Chain' (· < ·) (grpcRunIds ⟨[⟨1, "a", "d", 0, 0⟩], 1⟩
      [GOp.gdelete "a", GOp.gcreate "a" "e" 5, GOp.gdelete "a",
        GOp.gcreate "a" "f" 9]).2 ∧
    (∀ rr ∈ (⟨[⟨1, "a", "d", 0, 0⟩], 1⟩ : GrpcDB).rows,
      ∀ i ∈ (grpcRunIds ⟨[⟨1, "a", "d", 0, 0⟩], 1⟩
        [GOp.gdelete "a", GOp.gcreate "a" "e" 5, GOp.gdelete "a",
          GOp.gcreate "a" "f" 9]).2,
      rr.id < i) := by
  have h := delete_finality ⟨[⟨1, "a", "d", 0, 0⟩]⟩ ⟨[⟨1, "a", "d", 0, 0⟩], 1⟩
    "a" "e" 5 5 5 ⟨1, "a", "d", 0, 0⟩ ⟨1, "a", "d", 0, 0⟩
    (by decide) (by decide) (by decide) (by decide) (by decide) (by decide)
    [GOp.gdelete "a", GOp.gcreate "a" "e" 5, GOp.gdelete "a",
      GOp.gcreate "a" "f" 9]
    (by decide)
  exact h

/-- Counterexample to C8: neither query adds an id tie-break, so with two
records sharing created_at = 5 the id-descending output [id 2, id 1] is a
valid result of ORDER BY created_at DESC on both stores — ties are not in
ascending id order — and [id 1, id 2] is an equally valid result, so two
calls with no intervening writes may return different sequences. -/
theorem listing_tiebreak_counterexample :
    get_terms_spec ⟨[⟨1, "a", "x", 5, 5⟩, ⟨2, "b", "y", 5, 5⟩]⟩
      "created_at" "desc" [⟨2, "b", "y", 5, 5⟩, ⟨1, "a", "x", 5, 5⟩] ∧
    tiesById .byCreated [⟨2, "b", "y", 5, 5⟩, ⟨1, "a", "x", 5, 5⟩] = false ∧
    get_terms_spec ⟨[⟨1, "a", "x", 5, 5⟩, ⟨2, "b", "y", 5, 5⟩]⟩
      "created_at" "desc" [⟨1, "a", "x", 5, 5⟩, ⟨2, "b", "y", 5, 5⟩] ∧
    ([⟨2, "b", "y", 5, 5⟩, ⟨1, "a", "x", 5, 5⟩] : List Term) ≠
      [⟨1, "a", "x", 5, 5⟩, ⟨2, "b", "y", 5, 5⟩] ∧
    get_all_terms_spec ⟨[⟨1, "a", "x", 5, 5⟩, ⟨2, "b", "y", 5, 5⟩], 2⟩
      [⟨2, "b", "y", 5, 5⟩, ⟨1, "a", "x", 5, 5⟩] := by
  refine ⟨⟨?_, by decide⟩, by decide, ⟨List.Perm.refl _, by decide⟩,
    by decide, ⟨?_, by decide⟩⟩
  · exact List.Perm.swap _ _ _
  · exact List.Perm.swap _ _ _

/-- C8 as amended: every listing output is a permutation of the records
weakly sorted on the chosen column; when the records carry pairwise
distinct values of that column the output is uniquely determined, so
repeated calls with no intervening writes agree; records tying on the
column, however, may appear in either relative order (no id tie-break is
requested), so neither id-ascending tie order nor identical repeated
sequences are guaranteed. -/
theorem listing_deterministic_when_distinct (k : SortKey) (o : SortOrder)
    (rows out1 out2 : List Term) (hnd : DistinctKeys k rows)
    (h1 : IsOrderByResult k o rows out1) (h2 : IsOrderByResult k o rows out2) :
    out1 = out2 := by
  have hpw1 : out1.Pairwise (fun a b =>
      ¬(keyLe k a b = true ∧ keyLe k b a = true)) :=
    (List.Perm.pairwise_iff (fun h hc => h ⟨hc.2, hc.1⟩) h1.1).mp hnd
  have hpw1c : out1.Pairwise (fun a b =>
      ¬(cmpB k o a b = true ∧ cmpB k o b a = true)) :=
    hpw1.imp (fun h => cmpB_no_tie_of_keyLe h)
  exact chain_perm_unique (cmpB k o) (cmpB_trans k o)
    out1 out2 (h1.1.symm.trans h2.1) hpw1c h1.2 h2.2

/-- Witness for C8 as amended: two records with distinct created_at give a
unique descending listing. -/
theorem listing_deterministic_witness :
    ([⟨2, "b", "y", 9, 9⟩, ⟨1, "a", "x", 5, 5⟩] : List Term) =
      [⟨2, "b", "y", 9, 9⟩, ⟨1, "a", "x", 5, 5⟩] :=
  listing_deterministic_when_distinct .byCreated .descO
    [⟨1, "a", "x", 5, 5⟩, ⟨2, "b", "y", 9, 9⟩]
    [⟨2, "b", "y", 9, 9⟩, ⟨1, "a", "x", 5, 5⟩]
    [⟨2, "b", "y", 9, 9⟩, ⟨1, "a", "x", 5, 5⟩]
    (by decide)
    ⟨List.Perm.swap _ _ _, by decide⟩
    ⟨List.Perm.swap _ _ _, by decide⟩

/-- Counterexample to C3: both adapters start from identical (empty)
stores and process the same sequence create a, delete a, create a with the
same clock, and both creates succeed; but the stores assign ids
differently — max(live id) + 1 versus AUTOINCREMENT — so the final create
returns Term fields id 1 on the text/JSON adapter and id 2 on the binary
RPC adapter: the resulting Term field values differ. -/
theorem cross_protocol_counterexample :
    (create_term_endpoint (delete_term_endpoint
        (create_term_endpoint ⟨[]⟩ "a" "d" 0 0).1 "a").1 "a" "d" 5 5).2 =
      RestResult.created201 ⟨1, "a", "d", 5, 5⟩ ∧
    (CreateTerm (DeleteTerm (CreateTerm ⟨[], 0⟩ "a" "d" 0).1 "a").1
        "a" "d" 5).2.2 = some ⟨2, "a", "d", 5, 5⟩ ∧
    (Term.mk 1 "a" "d" 5 5) ≠ (Term.mk 2 "a" "d" 5 5) := by
  refine ⟨rfl, rfl, by decide⟩

/-- C3 as amended: against stores holding the same rows and given the same
clock, every operation reports the same outcome kind through both
adapters, and get, update and delete agree on the full resulting Term
fields; a successful create agrees on term, definition and both
timestamps, but not necessarily on id, because the two stores assign ids
under different rules (max live id + 1 versus AUTOINCREMENT). -/
theorem cross_protocol_kinds (db : RestDB) (g : GrpcDB) (t d : String)
    (now : Nat) (hrows : db.rows = g.rows) (ht : 1 ≤ t.length) :
    restKind (create_term_endpoint db t d now now).2 =
      grpcKind (CreateTerm g t d now).2.1 ∧
    (∀ row rowg : Term,
      (create_term_endpoint db t d now now).2 = RestResult.created201 row →
      (CreateTerm g t d now).2.2 = some rowg →
      row.term = rowg.term ∧ row.definition = rowg.definition ∧
      row.created_at = rowg.created_at ∧ row.updated_at = rowg.updated_at) ∧
    restKind (get_term_endpoint db t) = grpcKind (GetTerm g t).1 ∧
    (∀ row : Term, get_term_endpoint db t = RestResult.ok200 row →
      (GetTerm g t).2 = some row) ∧
    restKind (update_term_endpoint db t d now).2 =
      grpcKind (UpdateTerm g t d now).2.1 ∧
    (∀ row : Term, (update_term_endpoint db t d now).2 = RestResult.ok200 row →
      (UpdateTerm g t d now).2.2 = some row) ∧
    restKind (delete_term_endpoint db t).2 = grpcKind (DeleteTerm g t).2 := by
  have htne : ¬ t.length = 0 := by omega
  by_cases hd : d.length = 0
  · have hv : validCreateBody t d = false := by
      simp [validCreateBody, hd]
    have hb : (t.length = 0 || d.length = 0 : Bool) = true := by
      simp [hd]
    have hdv : (decide (1 ≤ d.length) : Bool) = false := by
      simp
      omega
    refine ⟨?_, ?_, ?_, ?_, ?_, ?_, ?_⟩
    · simp [create_term_endpoint, create_term_endpoint2, hv, CreateTerm, hb,
        restKind, grpcKind]
    · intro row rowg hcr
      simp [create_term_endpoint, create_term_endpoint2, hv] at hcr
    · cases hfind : findTerm g.rows t with
      | none =>
        simp [get_term_endpoint, hrows, hfind, GetTerm, htne,
          get_term_by_name, restKind, grpcKind]
      | some r =>
        simp [get_term_endpoint, hrows, hfind, GetTerm, htne,
          get_term_by_name, restKind, grpcKind]
    · intro row hget
      cases hfind : findTerm g.rows t with
      | none => simp [get_term_endpoint, hrows, hfind] at hget
      | some r =>
        simp [get_term_endpoint, hrows, hfind] at hget
        simp [GetTerm, htne, get_term_by_name, hfind, hget]
    · simp [update_term_endpoint, hdv, UpdateTerm, hb, restKind, grpcKind]
    · intro row hup
      simp [update_term_endpoint, hdv] at hup
    · cases hfind : findTerm g.rows t with
      | none =>
        simp [delete_term_endpoint, hrows, hfind, DeleteTerm, htne,
          grpc_delete_term, restKind, grpcKind]
      | some r =>
        simp [delete_term_endpoint, hrows, hfind, DeleteTerm, htne,
          grpc_delete_term, restKind, grpcKind]
  · have hv : validCreateBody t d = true := by
      simp [validCreateBody, ht]
      omega
    have hb : (t.length = 0 || d.length = 0 : Bool) = false := by
      simp [htne, hd]
    have hdv : (decide (1 ≤ d.length) : Bool) = true := by
      simp
      omega
    refine ⟨?_, ?_, ?_, ?_, ?_, ?_, ?_⟩
    · by_cases hex : hasTerm g.rows t = true
      · simp [create_term_endpoint, create_term_endpoint2, hv, hrows, hex,
          CreateTerm, hb, grpc_create_term, restKind, grpcKind]
      · simp only [Bool.not_eq_true] at hex
        simp [create_term_endpoint, create_term_endpoint2, hv, hrows, hex,
          rest_insert, CreateTerm, hb, grpc_create_term, restKind, grpcKind]
    · intro row rowg hcr hcg
      by_cases hex : hasTerm g.rows t = true
      · simp [create_term_endpoint, create_term_endpoint2, hv, hrows, hex]
          at hcr
      · simp only [Bool.not_eq_true] at hex
        simp [create_term_endpoint, create_term_endpoint2, hv, hrows, hex,
          rest_insert] at hcr
        simp [CreateTerm, hb, grpc_create_term, hex] at hcg
        rw [← hcr, ← hcg]
        exact ⟨rfl, rfl, rfl, rfl⟩
    · cases hfind : findTerm g.rows t with
      | none =>
        simp [get_term_endpoint, hrows, hfind, GetTerm, htne,
          get_term_by_name, restKind, grpcKind]
      | some r =>
        simp [get_term_endpoint, hrows, hfind, GetTerm, htne,
          get_term_by_name, restKind, grpcKind]
    · intro row hget
      cases hfind : findTerm g.rows t with
      | none => simp [get_term_endpoint, hrows, hfind] at hget
      | some r =>
        simp [get_term_endpoint, hrows, hfind] at hget
        simp [GetTerm, htne, get_term_by_name, hfind, hget]
    · cases hfind : findTerm g.rows t with
      | none =>
        simp [update_term_endpoint, hdv, hrows, hfind, UpdateTerm, hb,
          grpc_update_term, restKind, grpcKind]
      | some r =>
        simp [update_term_endpoint, hdv, hrows, hfind, UpdateTerm, hb,
          grpc_update_term, restKind, grpcKind]
    · intro row hup
      cases hfind : findTerm g.rows t with
      | none => simp [update_term_endpoint, hdv, hrows, hfind] at hup
      | some r =>
        simp [update_term_endpoint, hdv, hrows, hfind] at hup
        simp [UpdateTerm, hb, grpc_update_term, hfind, hup]
    · cases hfind : findTerm g.rows t with
      | none =>
        simp [delete_term_endpoint, hrows, hfind, DeleteTerm, htne,
          grpc_delete_term, restKind, grpcKind]
      | some r =>
        simp [delete_term_endpoint, hrows, hfind, DeleteTerm, htne,
          grpc_delete_term, restKind, grpcKind]

/-- Witness for C3 as amended: one store holding the term a on both sides,
operated on with the term b create and the term a get, update and
delete. -/
theorem cross_protocol_kinds_witness :
    restKind (create_term_endpoint ⟨[⟨1, "a", "d", 0, 0⟩]⟩ "a" "e" 4 4).2 =
      grpcKind (CreateTerm ⟨[⟨1, "a", "d", 0, 0⟩], 1⟩ "a" "e" 4).2.1 ∧
    (∀ row rowg : Term,
      (create_term_endpoint ⟨[⟨1, "a", "d", 0, 0⟩]⟩ "a" "e" 4 4).2 =
        RestResult.created201 row →
      (CreateTerm ⟨[⟨1, "a", "d", 0, 0⟩], 1⟩ "a" "e" 4).2.2 = some rowg →
      row.term = rowg.term ∧ row.definition = rowg.definition ∧
      row.created_at = rowg.created_at ∧ row.updated_at = rowg.updated_at) ∧
    restKind (get_term_endpoint ⟨[⟨1, "a", "d", 0, 0⟩]⟩ "a") =
      grpcKind (GetTerm ⟨[⟨1, "a", "d", 0, 0⟩], 1⟩ "a").1 ∧
    (∀ row : Term, get_term_endpoint ⟨[⟨1, "a", "d", 0, 0⟩]⟩ "a" =
        RestResult.ok200 row →
      (GetTerm ⟨[⟨1, "a", "d", 0, 0⟩], 1⟩ "a").2 = some row) ∧
    restKind (update_term_endpoint ⟨[⟨1, "a", "d", 0, 0⟩]⟩ "a" "e" 4).2 =
      grpcKind (UpdateTerm ⟨[⟨1, "a", "d", 0, 0⟩], 1⟩ "a" "e" 4).2.1 ∧
    (∀ row : Term,
      (update_term_endpoint ⟨[⟨1, "a", "d", 0, 0⟩]⟩ "a" "e" 4).2 =
        RestResult.ok200 row →
      (UpdateTerm ⟨[⟨1, "a", "d", 0, 0⟩], 1⟩ "a" "e" 4).2.2 = some row) ∧
    restKind (delete_term_endpoint ⟨[⟨1, "a", "d", 0, 0⟩]⟩ "a").2 =
      grpcKind (DeleteTerm ⟨[⟨1, "a", "d", 0, 0⟩], 1⟩ "a").2 :=
  cross_protocol_kinds ⟨[⟨1, "a", "d", 0, 0⟩]⟩ ⟨[⟨1, "a", "d", 0, 0⟩], 1⟩
    "a" "e" 4 rfl (by decide)

end Glossary
